import Mathlib

/-!
Shallow embedding of the xcp copy pipeline (src/operations.rs) and proofs
about it.  Paths are modelled as lists of components; the filesystem is an
oracle of boolean queries; the OS bulk-transfer primitive, channels and the
stats sink are modelled explicitly.  Modules of the crate that are not part
of the sources here (errors.rs, os.rs, progress.rs, utils.rs) are modelled
from the specification where their behaviour matters; each such definition
says so in its doc comment.
-/

namespace Xcp

/-- A filesystem path, as its list of components (Rust `Path::components`). -/
abbrev Path := List String

/-- File kinds distinguished by the traversal.  Modelled from the spec:
`utils.rs` provides `FileType`/`ToFileType` classifying an entry as regular
file, symlink, directory, or unknown. -/
inductive FileType
  | File
  | Symlink
  | Dir
  | Unknown
deriving DecidableEq, Repr

/-- The kind carried by a generic I/O error (`std::io::ErrorKind`); only the
distinction between `AlreadyExists` and everything else matters here. -/
inductive IOKind
  | AlreadyExists
  | Other
deriving DecidableEq, Repr

/-- Error type of the crate.  Modelled from the spec: `errors.rs` defines
`XcpError` with variants for destination-exists (carrying the offending
path), early shutdown, unknown filetype, invalid source, unknown filename,
and wraps generic I/O and strip-prefix failures. -/
inductive XcpError
  | DestinationExists (path : Path)
  | EarlyShutdown
  | UnknownFiletype (path : Path)
  | InvalidSource
  | UnknownFilename
  | StripFailed (path : Path)
  | IOError (kind : IOKind)
deriving DecidableEq, Repr

/-- Work-queue items (enum `Operation` in operations.rs). -/
inductive Operation
  | Copy (f t : Path)
  | Link (f t : Path)
  | CreateDir (d : Path)
  | End
deriving DecidableEq, Repr

/-- Progress statistics (enum `StatusUpdate`).  Modelled from the spec:
tagged variant `Size(byte_count) | Copied(byte_count)`. -/
inductive StatusUpdate
  | Size (n : Nat)
  | Copied (n : Nat)
deriving DecidableEq, Repr

/-- One observable emission by a pipeline stage: a send on the work queue,
or an update pushed into the stats sink.  A stats update carries either a
byte delta (`updates.update(Ok(n))`) or a terminal error
(`updates.update(Err(e))`); per the spec the sink forwards either toward
the Aggregator and the call itself succeeds. -/
inductive Emission
  | send (op : Operation)
  | statOk (n : Nat)
  | statErr (e : XcpError)
deriving DecidableEq, Repr

/-- Events of one `copy_file` call: a bulk transfer of `n` bytes by the copy
primitive, the progress update after it, and the final permission update. -/
inductive CopyEvent
  | transfer (n : Nat)
  | update (n : Nat)
  | setPerm (p : Nat)
deriving DecidableEq, Repr

/-- Configuration consumed by the operations (struct `Opts`, read-only). -/
structure Opts where
  dest : Path
  noclobber : Bool
  gitignore : Bool
  noprogress : Bool

/-- Filesystem oracle for the path queries the code performs; each field
models the namesake `std::path::Path` query at the moment it is asked. -/
structure Fs where
  pathExists : Path → Bool
  isDir : Path → Bool
  isFile : Path → Bool

/-- A source regular file: its byte content and its permission bits. -/
structure SrcFile where
  content : List Nat
  perm : Nat
deriving DecidableEq, Repr

/-! ## copy_file

`copy_file(from, to, updates)` opens the source, creates the destination,
reads `(perm, len)` from the source metadata, then loops: while
`written < len` it requests `min(len - written, batch_size)` bytes from the
external primitive `copy_file_bytes`, adds the returned count to `written`,
and pushes a progress update; finally it applies `perm` to the destination
and returns `written`.

The primitive is modelled from the spec: `os.rs` provides
`copy_file_bytes(infd, outfd, max) -> bytes_transferred` which may move
fewer bytes than requested and may fail; here it is an oracle
`prim : Nat → Nat → Option Nat` mapping (call index, requested bytes) to
the transferred count.  Sequential reading of the source is made explicit:
a transfer of `r` bytes appends the next `r` source bytes to the
destination content.  The Rust `while` loop is modelled with fuel; the
termination theorems show fuel `len` suffices whenever the primitive makes
progress. -/

def copyLoop (prim : Nat → Nat → Option Nat) (batch : Nat) (src : List Nat) :
    Nat → Nat → Nat → List Nat → Option (Nat × List Nat × List CopyEvent)
  | 0, _, written, dst =>
      if written < src.length then none else some (written, dst, [])
  | fuel + 1, i, written, dst =>
      if written < src.length then
        let req := min (src.length - written) batch
        match prim i req with
        | none => none
        | some r =>
            match copyLoop prim batch src fuel (i + 1) (written + r)
                (dst ++ (src.drop written).take r) with
            | none => none
            | some (w, d, evs) =>
                some (w, d, CopyEvent.transfer r :: CopyEvent.update r :: evs)
      else some (written, dst, [])

/-- The whole of `copy_file` on the success path of open/create/metadata:
run the chunked loop from `written = 0` on an empty destination, then apply
the source permissions.  Returns (bytes written, destination content, event
trace), or `none` when a primitive call fails or fuel runs out. -/
def copy_file (prim : Nat → Nat → Option Nat) (batch : Nat) (src : SrcFile)
    (fuel : Nat) : Option (Nat × List Nat × List CopyEvent) :=
  match copyLoop prim batch src.content fuel 0 0 [] with
  | none => none
  | some (w, d, evs) => some (w, d, evs ++ [CopyEvent.setPerm src.perm])

/-- Total bytes moved by the transfer events of a trace. -/
def transferSum : List CopyEvent → Nat
  | [] => 0
  | CopyEvent.transfer n :: rest => n + transferSum rest
  | _ :: rest => transferSum rest

/-- Whether a trace contains a permission update. -/
def hasSetPerm : List CopyEvent → Bool
  | [] => false
  | CopyEvent.setPerm _ :: _ => true
  | _ :: rest => hasSetPerm rest

/-! ## tree_walker

`tree_walker(source, opts, work_tx, updates)` computes the target base once
(`opts.dest.join(last component of source)` when `opts.dest` exists, else
`opts.dest`), then for each entry of the walk it strips the source root
from the entry path, joins the remainder onto the base (the root entry,
whose stripped path is empty, maps to the base itself), applies the
no-clobber check, and dispatches on the file kind.  The walk is modelled by
the list of entries the (ignore-filtered) `WalkDir` iterator yields, each
carrying the data its `symlink_metadata` and `read_link` calls return; the
channel sends are modelled as always succeeding (unbounded channel with a
live receiver). -/

/-- One entry yielded by the directory walk: its absolute path, its file
kind, its metadata length, and (for symlinks) the raw link target text as
`read_link` returns it. -/
structure Entry where
  path : Path
  ftype : FileType
  len : Nat
  linkTarget : Path
deriving DecidableEq, Repr

/-- Rust `from.strip_prefix(&source)` on component lists: the remainder of
`p` after the leading `root` components, or `none` when `root` does not
lead `p`. -/
def stripRoot (root p : Path) : Option Path :=
  if p.take root.length = root then some (p.drop root.length) else none

/-- Rust helper `empty(path)`: the path with no components. -/
def emptyPath (p : Path) : Bool := p = ([] : Path)

/-- The target path of one entry: the target base joined with the stripped
relative path, the root entry (empty relative path) mapping to the base
itself (`if !empty(&path) { target_base.join(&path) } else { target_base
.clone() }`). -/
def walkTarget (base rel : Path) : Path :=
  if !emptyPath rel then base ++ rel else base

/-- The emissions of the kind-dispatch `match` of one entry: a file sends
its size then a `Copy`; a symlink sends a `Link` carrying the raw target
text; a directory sends a `CreateDir` then its metadata length; an unknown
kind sends `End` and reports the error. -/
def walkEmits (e : Entry) (target : Path) : List Emission :=
  match e.ftype with
  | FileType.File =>
      [Emission.statOk e.len,
       Emission.send (Operation.Copy e.path target)]
  | FileType.Symlink =>
      [Emission.send (Operation.Link e.linkTarget target)]
  | FileType.Dir =>
      [Emission.send (Operation.CreateDir target),
       Emission.statOk e.len]
  | FileType.Unknown =>
      [Emission.send Operation.End,
       Emission.statErr (XcpError.UnknownFiletype target)]

/-- The per-entry loop body of `tree_walker`, over the remaining entries.
Returns the list of emissions (work-queue sends and stats-sink updates, in
order) and the Result value of the walker.  Per the spec the stats sink
forwards an error without itself failing, so after the unknown-filetype
arm the loop continues; the no-clobber arm instead returns early with
`EarlyShutdown`. -/
def walkLoop (fs : Fs) (opts : Opts) (source base : Path) :
    List Entry → List Emission × Except XcpError Unit
  | [] => ([Emission.send Operation.End], Except.ok ())
  | e :: rest =>
      match stripRoot source e.path with
      | none => ([], Except.error (XcpError.StripFailed e.path))
      | some rel =>
          let target := walkTarget base rel
          if fs.pathExists target && opts.noclobber then
            ([Emission.send Operation.End,
              Emission.statErr (XcpError.DestinationExists target)],
             Except.error XcpError.EarlyShutdown)
          else
            let tail := walkLoop fs opts source base rest
            (walkEmits e target ++ tail.1, tail.2)

/-- The whole of `tree_walker`: fail with `InvalidSource` when the source
has no final component, otherwise compute the target base once and run the
loop over the walk entries, with the final `End` send on normal
completion (folded into the empty case of `walkLoop`). -/
def tree_walker (fs : Fs) (opts : Opts) (source : Path)
    (entries : List Entry) : List Emission × Except XcpError Unit :=
  match source.getLast? with
  | none => ([], Except.error XcpError.InvalidSource)
  | some sourcedir =>
      let base :=
        if fs.pathExists opts.dest then opts.dest ++ [sourcedir]
        else opts.dest
      walkLoop fs opts source base entries

/-- The operations sent on the work queue among a list of emissions. -/
def sentOps : List Emission → List Operation
  | [] => []
  | Emission.send op :: rest => op :: sentOps rest
  | _ :: rest => sentOps rest

/-- The destination path an operation writes to (`End` has none). -/
def opTarget : Operation → Option Path
  | Operation.Copy _ t => some t
  | Operation.Link _ t => some t
  | Operation.CreateDir d => some d
  | Operation.End => none

/-- How many `End` sentinels a list of emissions sends. -/
def countEnd : List Emission → Nat
  | [] => 0
  | Emission.send Operation.End :: rest => countEnd rest + 1
  | _ :: rest => countEnd rest

/-! ## copy_worker

`copy_worker(work, updates)` drains the queue in order.  A `Copy` runs
`copy_file` and discards its Result (`let _res = ...`); a `Link` runs
`symlink(from, to)` and discards its Result; a `CreateDir` runs
`create_dir_all(&dir)?` then `updates.update(Ok(dir.metadata()?.len()))?`,
so failures there propagate out of the loop; `End` breaks the loop.  The
filesystem outcomes of the attempted actions are an oracle. -/

/-- The filesystem action a worker iteration attempts. -/
inductive ExecAction
  | copyFile (f t : Path)
  | makeLink (f t : Path)
  | makeDir (d : Path)
deriving DecidableEq, Repr

/-- Outcomes of the filesystem calls the worker makes, as oracles keyed by
the paths involved. -/
structure WorkerFs where
  copyRes : Path → Path → Except XcpError Nat
  linkRes : Path → Path → Except XcpError Unit
  dirRes : Path → Except XcpError Unit
  dirLen : Path → Except XcpError Nat

/-- The consume loop of `copy_worker`: the actions attempted in order and
the Result value the worker thread ends with. -/
def copy_worker (wfs : WorkerFs) :
    List Operation → List ExecAction × Except XcpError Unit
  | [] => ([], Except.ok ())
  | Operation.Copy f t :: rest =>
      let _res := wfs.copyRes f t
      let tail := copy_worker wfs rest
      (ExecAction.copyFile f t :: tail.1, tail.2)
  | Operation.Link f t :: rest =>
      let _res := wfs.linkRes f t
      let tail := copy_worker wfs rest
      (ExecAction.makeLink f t :: tail.1, tail.2)
  | Operation.CreateDir d :: rest =>
      match wfs.dirRes d with
      | Except.error e => ([ExecAction.makeDir d], Except.error e)
      | Except.ok _ =>
          match wfs.dirLen d with
          | Except.error e => ([ExecAction.makeDir d], Except.error e)
          | Except.ok _ =>
              let tail := copy_worker wfs rest
              (ExecAction.makeDir d :: tail.1, tail.2)
  | Operation.End :: _ => ([], Except.ok ())

/-! ## copy_tree (Aggregator)

`copy_tree(source, opts)` spawns the worker and the walker, binding their
join handles to `_copy_worker` and `_walk_worker`, which are never joined
(the FIXME comment on the receive loop records this).  The calling thread
folds the stats channel: `Size` deltas into `total`, `Copied` deltas into
`copied`; `stat?` returns the first received error as the result of the
whole call.  The model takes the sequence of results received on the stats
channel and the two thread Result values; the latter are parameters only
to make their being dropped visible. -/

/-- The receive loop of `copy_tree` over the stats channel, accumulating
the running totals. -/
def aggregate :
    List (Except XcpError StatusUpdate) → Nat → Nat →
    Except XcpError (Nat × Nat)
  | [], total, copied => Except.ok (total, copied)
  | Except.error e :: _, _, _ => Except.error e
  | Except.ok (StatusUpdate.Size s) :: rest, total, copied =>
      aggregate rest (total + s) copied
  | Except.ok (StatusUpdate.Copied s) :: rest, total, copied =>
      aggregate rest total (copied + s)

/-- The caller-visible outcome of `copy_tree`: the walker and worker thread
Results are dropped unjoined; only the stats channel decides the result.
On success the accumulated `(total, copied)` pair (which the code feeds to
the progress bar) is returned in place of Rust `Ok(())`. -/
def copy_tree (stats : List (Except XcpError StatusUpdate))
    (walkRes execRes : Except XcpError Unit) : Except XcpError (Nat × Nat) :=
  aggregate stats 0 0

/-- Whether a stats-channel history contains no terminal error. -/
def errFree : List (Except XcpError StatusUpdate) → Bool
  | [] => true
  | Except.error _ :: _ => false
  | Except.ok _ :: rest => errFree rest

/-! ## copy_single_file

`copy_single_file(source, opts)` computes the destination (when
`opts.dest` is a directory, `opts.dest` joined with the source file name,
failing with `UnknownFilename` when there is none; otherwise `opts.dest`
itself), returns an `AlreadyExists` I/O error when the destination is a
regular file and no-clobber is set, and otherwise runs the same
`copy_file` on the calling thread.  The result is the pair of the copy
event trace actually performed (empty when nothing was copied) and the
Result value. -/

/-- The destination computation of `copy_single_file`: when `opts.dest` is
a directory, join the source file name onto it (`UnknownFilename` when the
source has none); otherwise `opts.dest` itself. -/
def singleDest (fs : Fs) (opts : Opts) (source : Path) :
    Except XcpError Path :=
  if fs.isDir opts.dest then
    match source.getLast? with
    | none => Except.error XcpError.UnknownFilename
    | some fname => Except.ok (opts.dest ++ [fname])
  else Except.ok opts.dest

def copy_single_file (fs : Fs) (opts : Opts) (source : Path) (src : SrcFile)
    (prim : Nat → Nat → Option Nat) (batch fuel : Nat) :
    List CopyEvent × Except XcpError (Path × Nat) :=
  match singleDest fs opts source with
  | Except.error e => ([], Except.error e)
  | Except.ok dest =>
      if fs.isFile dest && opts.noclobber then
        ([], Except.error (XcpError.IOError IOKind.AlreadyExists))
      else
        match copy_file prim batch src fuel with
        | none => ([], Except.error (XcpError.IOError IOKind.Other))
        | some (w, _d, evs) => (evs, Except.ok (dest, w))

/-! ## Lemmas about the chunked copy loop -/

/-- When `written` already equals the length, the loop exits at once with
no events, whatever the fuel. -/
lemma copyLoop_done (prim : Nat → Nat → Option Nat) (batch : Nat)
    (src : List Nat) (fuel i : Nat) (dst : List Nat) :
    copyLoop prim batch src fuel i src.length dst =
      some (src.length, dst, []) := by
  cases fuel <;> simp [copyLoop]

/-- Completeness of the loop: whenever every primitive call moves at least
one byte and at most the requested count, fuel `len - written` suffices,
the loop ends with `written = len`, the destination receives exactly the
remaining source bytes, and the trace transfers `len - written` bytes with
no permission update. -/
lemma copyLoop_complete (prim : Nat → Nat → Option Nat) (batch : Nat)
    (src : List Nat) (hb : 1 ≤ batch)
    (hp : ∀ i req, 1 ≤ req → ∃ r, prim i req = some r ∧ 1 ≤ r ∧ r ≤ req) :
    ∀ fuel i written dst, written ≤ src.length →
      src.length - written ≤ fuel →
      ∃ evs, copyLoop prim batch src fuel i written dst =
          some (src.length, dst ++ src.drop written, evs) ∧
        transferSum evs = src.length - written ∧ hasSetPerm evs = false := by
  intro fuel
  induction fuel with
  | zero =>
      intro i written dst hw hf
      have hwl : written = src.length := by omega
      subst hwl
      refine ⟨[], ?_, by simp [transferSum], by simp [hasSetPerm]⟩
      simp [copyLoop_done]
  | succ fuel ih =>
      intro i written dst hw hf
      by_cases hlt : written < src.length
      · have hreq : 1 ≤ min (src.length - written) batch := by omega
        obtain ⟨r, hr, hr1, hr2⟩ := hp i (min (src.length - written) batch) hreq
        have hrle : r ≤ src.length - written :=
          le_trans hr2 (min_le_left _ _)
        obtain ⟨evs, heq, hsum, hsp⟩ :=
          ih (i + 1) (written + r) (dst ++ (src.drop written).take r)
            (by omega) (by omega)
        refine ⟨CopyEvent.transfer r :: CopyEvent.update r :: evs, ?_, ?_, ?_⟩
        · have hjoin :
              (src.drop written).take r ++ src.drop (written + r) =
                src.drop written := by
            rw [← List.drop_drop, List.take_append_drop]
          simp only [copyLoop, if_pos hlt, hr, heq]
          rw [List.append_assoc, hjoin]
        · simp [transferSum, hsum]
          omega
        · simpa [hasSetPerm] using hsp
      · have hwl : written = src.length := by omega
        subst hwl
        refine ⟨[], ?_, by simp [transferSum], by simp [hasSetPerm]⟩
        simp [copyLoop_done]

/-- When every primitive call reports zero bytes moved and bytes remain,
the loop never finishes: each iteration leaves `written` and the
destination unchanged, so every fuel value is exhausted. -/
lemma copyLoop_zero_stuck (prim : Nat → Nat → Option Nat) (batch : Nat)
    (src : List Nat) (hz : ∀ i req, prim i req = some 0) :
    ∀ fuel i written dst, written < src.length →
      copyLoop prim batch src fuel i written dst = none := by
  intro fuel
  induction fuel with
  | zero => intro i written dst hlt; simp [copyLoop, hlt]
  | succ fuel ih =>
      intro i written dst hlt
      have hrec := ih (i + 1) written dst hlt
      simp [copyLoop, hlt, hz, hrec]

/-- C1: for a regular-file copy in which opening, the metadata query, every
transfer call (each moving between one byte and the requested count), and
the permission update succeed, copy_file transfers exactly the source
length, the destination content equals the source content, the permission
bits are applied only after the full length is copied (the `setPerm` event
is the final event, after transfer events totalling the length), and the
returned byte count equals the source length. -/
theorem claim_C1_copy_file_exact (prim : Nat → Nat → Option Nat)
    (batch fuel : Nat) (src : SrcFile) (hb : 1 ≤ batch)
    (hp : ∀ i req, 1 ≤ req → ∃ r, prim i req = some r ∧ 1 ≤ r ∧ r ≤ req)
    (hf : src.content.length ≤ fuel) :
    ∃ evs, copy_file prim batch src fuel =
        some (src.content.length, src.content,
          evs ++ [CopyEvent.setPerm src.perm]) ∧
      transferSum evs = src.content.length ∧ hasSetPerm evs = false := by
  obtain ⟨evs, heq, hsum, hsp⟩ :=
    copyLoop_complete prim batch src.content hb hp fuel 0 0 []
      (by omega) (by omega)
  refine ⟨evs, ?_, by simpa using hsum, hsp⟩
  simp [copy_file, heq]

/-- Witness for C1 at a concrete three-byte file copied by a primitive that
always honours the full request. -/
theorem claim_C1_copy_file_exact_witness :
    ∃ evs, copy_file (fun _ req => some req) 8 ⟨[3, 1, 4], 6⟩ 3 =
        some (3, [3, 1, 4], evs ++ [CopyEvent.setPerm 6]) ∧
      transferSum evs = 3 ∧ hasSetPerm evs = false :=
  claim_C1_copy_file_exact (fun _ req => some req) 8 3 ⟨[3, 1, 4], 6⟩
    (by decide) (fun _ req h => ⟨req, rfl, h, Nat.le_refl req⟩) (by decide)

/-- C10: the chunked loop terminates for every source length when each
primitive call moves at least one byte (fuel equal to the length
suffices); with a primitive that always reports zero bytes and a nonempty
source, the loop makes no progress and no fuel value completes it. -/
theorem claim_C10_copy_loop_progress :
    (∀ (prim : Nat → Nat → Option Nat) (batch : Nat) (src : SrcFile),
      1 ≤ batch →
      (∀ i req, 1 ≤ req → ∃ r, prim i req = some r ∧ 1 ≤ r ∧ r ≤ req) →
      ∃ out, copy_file prim batch src src.content.length = some out) ∧
    (∀ (prim : Nat → Nat → Option Nat) (batch fuel : Nat) (src : SrcFile),
      0 < src.content.length →
      (∀ i req, prim i req = some 0) →
      copy_file prim batch src fuel = none) := by
  constructor
  · intro prim batch src hb hp
    obtain ⟨evs, heq, -, -⟩ :=
      copyLoop_complete prim batch src.content hb hp src.content.length 0 0 []
        (by omega) (by omega)
    refine ⟨(src.content.length, [] ++ src.content.drop 0,
      evs ++ [CopyEvent.setPerm src.perm]), ?_⟩
    simp only [copy_file, heq]
  · intro prim batch fuel src hlen hz
    have := copyLoop_zero_stuck prim batch src.content hz fuel 0 0 [] hlen
    simp only [copy_file, this]

/-- Witness for C10: a full-request primitive finishes a three-byte file
with fuel three, and an always-zero primitive completes for no fuel. -/
theorem claim_C10_copy_loop_progress_witness :
    (∃ out, copy_file (fun _ req => some req) 8 ⟨[3, 1, 4], 6⟩ 3 =
      some out) ∧
    copy_file (fun _ _ => some 0) 8 ⟨[3, 1, 4], 6⟩ 5 = none :=
  ⟨claim_C10_copy_loop_progress.1 (fun _ req => some req) 8 ⟨[3, 1, 4], 6⟩
      (by decide) (fun _ req h => ⟨req, rfl, h, Nat.le_refl req⟩),
    claim_C10_copy_loop_progress.2 (fun _ _ => some 0) 8 5 ⟨[3, 1, 4], 6⟩
      (by decide) (fun _ _ => rfl)⟩

/-! ## Lemmas about the traversal -/

/-- Queue sends distribute over concatenated emission lists. -/
lemma sentOps_append (a b : List Emission) :
    sentOps (a ++ b) = sentOps a ++ sentOps b := by
  induction a with
  | nil => rfl
  | cons x rest ih => cases x <;> simp [sentOps, ih]

/-- Unfolding `walkLoop` when the strip of the source root fails. -/
lemma walkLoop_strip_none (fs : Fs) (opts : Opts) (source base : Path)
    (e : Entry) (rest : List Entry)
    (h : stripRoot source e.path = none) :
    walkLoop fs opts source base (e :: rest) =
      ([], Except.error (XcpError.StripFailed e.path)) := by
  simp [walkLoop, h]

/-- Unfolding `walkLoop` on the no-clobber arm. -/
lemma walkLoop_clobber (fs : Fs) (opts : Opts) (source base : Path)
    (e : Entry) (rest : List Entry) (rel : Path)
    (h : stripRoot source e.path = some rel)
    (hc : (fs.pathExists (walkTarget base rel) && opts.noclobber) = true) :
    walkLoop fs opts source base (e :: rest) =
      ([Emission.send Operation.End,
        Emission.statErr (XcpError.DestinationExists (walkTarget base rel))],
       Except.error XcpError.EarlyShutdown) := by
  simp [walkLoop, h, hc]

/-- Unfolding `walkLoop` on the dispatch arm. -/
lemma walkLoop_step (fs : Fs) (opts : Opts) (source base : Path)
    (e : Entry) (rest : List Entry) (rel : Path)
    (h : stripRoot source e.path = some rel)
    (hc : ¬(fs.pathExists (walkTarget base rel) && opts.noclobber) = true) :
    walkLoop fs opts source base (e :: rest) =
      (walkEmits e (walkTarget base rel) ++
        (walkLoop fs opts source base rest).1,
       (walkLoop fs opts source base rest).2) := by
  simp [walkLoop, h, hc]

/-- Every operation the kind dispatch of one entry sends writes to that
entry's computed target. -/
lemma walkEmits_target (e : Entry) (target : Path) :
    ∀ op ∈ sentOps (walkEmits e target), ∀ t, opTarget op = some t →
      t = target := by
  intro op hop t ht
  cases hf : e.ftype with
  | File =>
      simp [walkEmits, hf, sentOps] at hop
      subst hop
      simp [opTarget] at ht
      exact ht.symm
  | Symlink =>
      simp [walkEmits, hf, sentOps] at hop
      subst hop
      simp [opTarget] at ht
      exact ht.symm
  | Dir =>
      simp [walkEmits, hf, sentOps] at hop
      subst hop
      simp [opTarget] at ht
      exact ht.symm
  | Unknown =>
      simp [walkEmits, hf, sentOps] at hop
      subst hop
      simp [opTarget] at ht

/-- The code's per-entry target agrees with the rebasing rule stated by the
spec: the base for the root entry, the base joined with the relative path
otherwise. -/
lemma walkTarget_eq (base rel : Path) :
    walkTarget base rel = if rel = [] then base else base ++ rel := by
  by_cases h : rel = ([] : Path) <;> simp [walkTarget, emptyPath, h]

/-- Every operation a walk sends targets the base joined with the stripped
relative path of one of its entries. -/
lemma walkLoop_targets (fs : Fs) (opts : Opts) (source base : Path) :
    ∀ entries : List Entry,
      ∀ op ∈ sentOps (walkLoop fs opts source base entries).1,
        ∀ t, opTarget op = some t →
          ∃ e ∈ entries, ∃ rel, stripRoot source e.path = some rel ∧
            t = walkTarget base rel := by
  intro entries
  induction entries with
  | nil =>
      intro op hop t ht
      simp [walkLoop, sentOps] at hop
      subst hop
      simp [opTarget] at ht
  | cons e rest ih =>
      intro op hop t ht
      cases hstrip : stripRoot source e.path with
      | none =>
          rw [walkLoop_strip_none fs opts source base e rest hstrip] at hop
          simp [sentOps] at hop
      | some rel =>
          by_cases hc :
              (fs.pathExists (walkTarget base rel) && opts.noclobber) = true
          · rw [walkLoop_clobber fs opts source base e rest rel hstrip hc]
              at hop
            simp [sentOps] at hop
            subst hop
            simp [opTarget] at ht
          · rw [walkLoop_step fs opts source base e rest rel hstrip hc] at hop
            rw [sentOps_append] at hop
            rcases List.mem_append.mp hop with h1 | h2
            · exact ⟨e, List.mem_cons_self e rest, rel, hstrip,
                walkEmits_target e (walkTarget base rel) op h1 t ht⟩
            · obtain ⟨e2, he2, rel2, hs2, ht2⟩ := ih op h2 t ht
              exact ⟨e2, List.mem_cons_of_mem e he2, rel2, hs2, ht2⟩

/-- C2: the destination base is the one computed before walking (the
destination joined with the final source component when the destination
exists, else the destination itself), and every operation the traversal
sends targets that base joined with the relative path of one of the
visited entries, the root entry (empty relative path) mapping directly to
the base. -/
theorem claim_C2_destination_layout (fs : Fs) (opts : Opts) (source : Path)
    (entries : List Entry) (sourcedir : String)
    (hs : source.getLast? = some sourcedir) :
    ∀ op ∈ sentOps (tree_walker fs opts source entries).1, ∀ t,
      opTarget op = some t →
      ∃ e ∈ entries, ∃ rel, stripRoot source e.path = some rel ∧
        t = (if rel = [] then
              (if fs.pathExists opts.dest then opts.dest ++ [sourcedir]
               else opts.dest)
             else
              (if fs.pathExists opts.dest then opts.dest ++ [sourcedir]
               else opts.dest) ++ rel) := by
  intro op hop t ht
  simp only [tree_walker, hs] at hop
  obtain ⟨e, he, rel, hrel, htar⟩ :=
    walkLoop_targets fs opts source _ entries op hop t ht
  exact ⟨e, he, rel, hrel, by rw [htar, walkTarget_eq]⟩

/-- A filesystem oracle on which no path exists. -/
def fsNone : Fs := ⟨fun _ => false, fun _ => false, fun _ => false⟩

/-- A configuration copying to destination `d` with every flag off. -/
def optsPlain : Opts := ⟨["d"], false, false, false⟩

/-- Witness for C2 on a two-entry walk (root directory plus one file): the
file copy sent by the traversal targets the base joined with its relative
path. -/
theorem claim_C2_destination_layout_witness :
    ∃ e ∈ [Entry.mk ["s"] FileType.Dir 0 [],
           Entry.mk ["s", "a"] FileType.File 5 []],
      ∃ rel, stripRoot ["s"] e.path = some rel ∧
        (["d", "a"] : Path) =
          (if rel = [] then (["d"] : Path) else ["d"] ++ rel) :=
  claim_C2_destination_layout fsNone optsPlain ["s"]
    [Entry.mk ["s"] FileType.Dir 0 [], Entry.mk ["s", "a"] FileType.File 5 []]
    "s" rfl (Operation.Copy ["s", "a"] ["d", "a"]) (by decide)
    ["d", "a"] rfl

/-- C3: when the computed destination of an entry already exists and
no-clobber is set, the traversal sends exactly the `End` sentinel followed
by a destination-exists error (carrying the offending path) into the stats
sink, dispatches nothing for the entry, and returns the early-shutdown
error, which differs from every generic I/O failure. -/
theorem claim_C3_noclobber_abort (fs : Fs) (opts : Opts)
    (source base : Path) (e : Entry) (rest : List Entry) (rel : Path)
    (hstrip : stripRoot source e.path = some rel)
    (hex : fs.pathExists (walkTarget base rel) = true)
    (hnc : opts.noclobber = true) :
    walkLoop fs opts source base (e :: rest) =
      ([Emission.send Operation.End,
        Emission.statErr (XcpError.DestinationExists (walkTarget base rel))],
       Except.error XcpError.EarlyShutdown) ∧
      ∀ k, XcpError.EarlyShutdown ≠ XcpError.IOError k := by
  refine ⟨?_, by intro k h; cases h⟩
  exact walkLoop_clobber fs opts source base e rest rel hstrip
    (by simp [hex, hnc])

/-- A filesystem oracle on which every path exists. -/
def fsAll : Fs := ⟨fun _ => true, fun _ => true, fun _ => true⟩

/-- A no-clobber configuration with destination `d`. -/
def optsNC : Opts := ⟨["d"], true, false, false⟩

/-- Witness for C3 on a one-entry walk whose target exists. -/
theorem claim_C3_noclobber_abort_witness :
    walkLoop fsAll optsNC ["s"] ["d"] [Entry.mk ["s"] FileType.Dir 0 []] =
      ([Emission.send Operation.End,
        Emission.statErr (XcpError.DestinationExists ["d"])],
       Except.error XcpError.EarlyShutdown) ∧
      XcpError.EarlyShutdown ≠ XcpError.IOError IOKind.Other :=
  ⟨(claim_C3_noclobber_abort fsAll optsNC ["s"] ["d"]
      (Entry.mk ["s"] FileType.Dir 0 []) [] [] rfl rfl rfl).1,
   (claim_C3_noclobber_abort fsAll optsNC ["s"] ["d"]
      (Entry.mk ["s"] FileType.Dir 0 []) [] [] rfl rfl rfl).2 IOKind.Other⟩

/-- C5 (amended): when an entry of unknown kind is encountered the
traversal emits `End` and reports the unknown-file-type error through the
stats sink, but the loop then continues with the remaining entries (whose
emissions, including the end-of-traversal `End`, follow), so more than one
`End` sentinel can be sent in one run. -/
theorem claim_C5_unknown_continues (fs : Fs) (opts : Opts)
    (source base : Path) (e : Entry) (rest : List Entry) (rel : Path)
    (hstrip : stripRoot source e.path = some rel)
    (hft : e.ftype = FileType.Unknown)
    (hc : ¬(fs.pathExists (walkTarget base rel) && opts.noclobber) = true) :
    walkLoop fs opts source base (e :: rest) =
      ([Emission.send Operation.End,
        Emission.statErr (XcpError.UnknownFiletype (walkTarget base rel))] ++
        (walkLoop fs opts source base rest).1,
       (walkLoop fs opts source base rest).2) := by
  rw [walkLoop_step fs opts source base e rest rel hstrip hc]
  simp [walkEmits, hft]

/-- Witness for the amended C5 on a one-entry walk with an unknown entry:
the error is reported and the walk then completes normally, sending the
final `End` as well. -/
theorem claim_C5_unknown_continues_witness :
    walkLoop fsNone optsPlain ["s"] ["d"]
        [Entry.mk ["s"] FileType.Unknown 0 []] =
      ([Emission.send Operation.End,
        Emission.statErr (XcpError.UnknownFiletype ["d"])] ++
        (walkLoop fsNone optsPlain ["s"] ["d"] []).1,
       (walkLoop fsNone optsPlain ["s"] ["d"] []).2) :=
  claim_C5_unknown_continues fsNone optsPlain ["s"] ["d"]
    (Entry.mk ["s"] FileType.Unknown 0 []) [] [] rfl rfl (by decide)

/-- Counterexample to C5 as stated: on a walk holding an unknown entry
followed by a regular file, the traversal reports the unknown-filetype
error but keeps going — it sends the copy of the later file after the
first `End`, finishes normally, and sends `End` twice in one run. -/
theorem claim_C5_counterexample :
    tree_walker fsNone optsPlain ["s"]
        [Entry.mk ["s"] FileType.Unknown 0 [],
         Entry.mk ["s", "a"] FileType.File 5 []] =
      ([Emission.send Operation.End,
        Emission.statErr (XcpError.UnknownFiletype ["d"]),
        Emission.statOk 5,
        Emission.send (Operation.Copy ["s", "a"] ["d", "a"]),
        Emission.send Operation.End], Except.ok ()) ∧
    countEnd
      [Emission.send Operation.End,
       Emission.statErr (XcpError.UnknownFiletype ["d"]),
       Emission.statOk 5,
       Emission.send (Operation.Copy ["s", "a"] ["d", "a"]),
       Emission.send Operation.End] = 2 :=
  ⟨rfl, rfl⟩

/-- C7: a symlink entry makes the traversal send a `Link` operation whose
target text is exactly the raw text `read_link` returned, aimed at the
entry's computed destination; and for any `Link` operation the executor
attempts exactly one symlink creation whose stored target text is the
operation's text verbatim, with no rebasing and no existence check (the
conclusion holds for every filesystem oracle). -/
theorem claim_C7_symlink_verbatim (fs : Fs) (opts : Opts)
    (source base : Path) (e : Entry) (rest : List Entry) (rel : Path)
    (wfs : WorkerFs) (f t : Path) (ops : List Operation)
    (hstrip : stripRoot source e.path = some rel)
    (hft : e.ftype = FileType.Symlink)
    (hc : ¬(fs.pathExists (walkTarget base rel) && opts.noclobber) = true) :
    walkLoop fs opts source base (e :: rest) =
      (Emission.send (Operation.Link e.linkTarget (walkTarget base rel)) ::
        (walkLoop fs opts source base rest).1,
       (walkLoop fs opts source base rest).2) ∧
    copy_worker wfs (Operation.Link f t :: ops) =
      (ExecAction.makeLink f t :: (copy_worker wfs ops).1,
       (copy_worker wfs ops).2) := by
  constructor
  · rw [walkLoop_step fs opts source base e rest rel hstrip hc]
    simp [walkEmits, hft]
  · simp [copy_worker]

/-- A worker filesystem oracle on which symlink creation and file copying
fail while directory creation succeeds. -/
def wfsFail : WorkerFs :=
  ⟨fun _ _ => Except.error (XcpError.IOError IOKind.Other),
   fun _ _ => Except.error (XcpError.IOError IOKind.Other),
   fun _ => Except.ok (),
   fun _ => Except.ok 0⟩

/-- Witness for C7: a dangling relative link target `up/x` is queued and
recreated verbatim. -/
theorem claim_C7_symlink_verbatim_witness :
    walkLoop fsNone optsPlain ["s"] ["d"]
        [Entry.mk ["s", "l"] FileType.Symlink 0 ["up", "x"]] =
      (Emission.send (Operation.Link ["up", "x"] ["d", "l"]) ::
        (walkLoop fsNone optsPlain ["s"] ["d"] []).1,
       (walkLoop fsNone optsPlain ["s"] ["d"] []).2) ∧
    copy_worker wfsFail [Operation.Link ["up", "x"] ["d", "l"]] =
      (ExecAction.makeLink ["up", "x"] ["d", "l"] ::
        (copy_worker wfsFail []).1,
       (copy_worker wfsFail []).2) :=
  claim_C7_symlink_verbatim fsNone optsPlain ["s"] ["d"]
    (Entry.mk ["s", "l"] FileType.Symlink 0 ["up", "x"]) [] ["l"]
    wfsFail ["up", "x"] ["d", "l"] [] rfl rfl (by decide)

/-- C8: a failing symlink creation for a `Link` operation is discarded and
the executor loop continues with the remaining operations, and a failing
file copy for a `Copy` operation likewise does not terminate the loop. -/
theorem claim_C8_worker_swallows_failures (wfs : WorkerFs)
    (f t f2 t2 : Path) (rest : List Operation) (e1 e2 : XcpError)
    (hl : wfs.linkRes f t = Except.error e1)
    (hcp : wfs.copyRes f2 t2 = Except.error e2) :
    copy_worker wfs (Operation.Link f t :: rest) =
      (ExecAction.makeLink f t :: (copy_worker wfs rest).1,
       (copy_worker wfs rest).2) ∧
    copy_worker wfs (Operation.Copy f2 t2 :: rest) =
      (ExecAction.copyFile f2 t2 :: (copy_worker wfs rest).1,
       (copy_worker wfs rest).2) :=
  ⟨by simp [copy_worker], by simp [copy_worker]⟩

/-- Witness for C8: with failing link and copy calls the worker still
drains the rest of the queue. -/
theorem claim_C8_worker_swallows_failures_witness :
    copy_worker wfsFail
        [Operation.Link ["a"] ["b"], Operation.End] =
      (ExecAction.makeLink ["a"] ["b"] ::
        (copy_worker wfsFail [Operation.End]).1,
       (copy_worker wfsFail [Operation.End]).2) ∧
    copy_worker wfsFail
        [Operation.Copy ["a"] ["b"], Operation.End] =
      (ExecAction.copyFile ["a"] ["b"] ::
        (copy_worker wfsFail [Operation.End]).1,
       (copy_worker wfsFail [Operation.End]).2) :=
  claim_C8_worker_swallows_failures wfsFail ["a"] ["b"] ["a"] ["b"]
    [Operation.End] (XcpError.IOError IOKind.Other)
    (XcpError.IOError IOKind.Other) rfl rfl

/-! ## Lemmas about the aggregator -/

/-- An error-free stats history aggregates to a success, whatever the
running totals. -/
lemma aggregate_errFree :
    ∀ (stats : List (Except XcpError StatusUpdate)) (a b : Nat),
      errFree stats = true →
      ∃ t c, aggregate stats a b = Except.ok (t, c)
  | [], a, b, _ => ⟨a, b, rfl⟩
  | Except.error _ :: _, _, _, h => by simp [errFree] at h
  | Except.ok (StatusUpdate.Size n) :: rest, a, b, h =>
      aggregate_errFree rest (a + n) b (by simpa [errFree] using h)
  | Except.ok (StatusUpdate.Copied n) :: rest, a, b, h =>
      aggregate_errFree rest a (b + n) (by simpa [errFree] using h)

/-- The receive loop stops at the first error on the stats channel and
returns it, ignoring everything queued behind it. -/
lemma aggregate_first_error :
    ∀ (pre : List (Except XcpError StatusUpdate)) (e : XcpError)
      (rest : List (Except XcpError StatusUpdate)) (a b : Nat),
      errFree pre = true →
      aggregate (pre ++ Except.error e :: rest) a b = Except.error e
  | [], _, _, _, _, _ => rfl
  | Except.error _ :: _, _, _, _, _, h => by simp [errFree] at h
  | Except.ok (StatusUpdate.Size n) :: pre, e, rest, a, b, h =>
      aggregate_first_error pre e rest (a + n) b (by simpa [errFree] using h)
  | Except.ok (StatusUpdate.Copied n) :: pre, e, rest, a, b, h =>
      aggregate_first_error pre e rest a (b + n) (by simpa [errFree] using h)

/-- C6 (amended): on the first terminal error received on the stats
channel, copy_tree stops consuming the remaining statistics and returns
that error as the result of the whole copy; but it does not join the
background stages — their thread Result values are dropped, so the
caller-visible result is the same whatever Result the executor stage ended
with. -/
theorem claim_C6_first_error_surfaces
    (pre rest : List (Except XcpError StatusUpdate)) (e : XcpError)
    (walkRes execRes execRes2 : Except XcpError Unit)
    (hpre : errFree pre = true) :
    copy_tree (pre ++ Except.error e :: rest) walkRes execRes =
      Except.error e ∧
    copy_tree (pre ++ Except.error e :: rest) walkRes execRes =
      copy_tree (pre ++ Except.error e :: rest) walkRes execRes2 :=
  ⟨aggregate_first_error pre e rest 0 0 hpre, rfl⟩

/-- Witness for the amended C6: one size update precedes the error, a
copied update is queued behind it and never consumed, and the executor
Result is immaterial. -/
theorem claim_C6_first_error_surfaces_witness :
    copy_tree
        [Except.ok (StatusUpdate.Size 4),
         Except.error (XcpError.DestinationExists ["d"]),
         Except.ok (StatusUpdate.Copied 4)]
        (Except.error XcpError.EarlyShutdown)
        (Except.error (XcpError.IOError IOKind.Other)) =
      Except.error (XcpError.DestinationExists ["d"]) ∧
    copy_tree
        [Except.ok (StatusUpdate.Size 4),
         Except.error (XcpError.DestinationExists ["d"]),
         Except.ok (StatusUpdate.Copied 4)]
        (Except.error XcpError.EarlyShutdown)
        (Except.error (XcpError.IOError IOKind.Other)) =
      copy_tree
        [Except.ok (StatusUpdate.Size 4),
         Except.error (XcpError.DestinationExists ["d"]),
         Except.ok (StatusUpdate.Copied 4)]
        (Except.error XcpError.EarlyShutdown)
        (Except.ok ()) :=
  claim_C6_first_error_surfaces
    [Except.ok (StatusUpdate.Size 4)]
    [Except.ok (StatusUpdate.Copied 4)]
    (XcpError.DestinationExists ["d"])
    (Except.error XcpError.EarlyShutdown)
    (Except.error (XcpError.IOError IOKind.Other))
    (Except.ok ()) rfl

/-- Counterexample to C6 as stated: receiving the terminal
destination-exists error, copy_tree returns it while the executor stage's
own Result — here a distinct pending I/O error — is dropped unjoined: the
call returns the same value whether that stage ended in error or in
success, so the stages' completion is neither awaited nor inspected. -/
theorem claim_C6_counterexample :
    copy_tree [Except.error (XcpError.DestinationExists ["d"])]
        (Except.error XcpError.EarlyShutdown)
        (Except.error (XcpError.IOError IOKind.Other)) =
      Except.error (XcpError.DestinationExists ["d"]) ∧
    copy_tree [Except.error (XcpError.DestinationExists ["d"])]
        (Except.error XcpError.EarlyShutdown)
        (Except.error (XcpError.IOError IOKind.Other)) =
      copy_tree [Except.error (XcpError.DestinationExists ["d"])]
        (Except.error XcpError.EarlyShutdown)
        (Except.ok ()) ∧
    XcpError.IOError IOKind.Other ≠ XcpError.DestinationExists ["d"] :=
  ⟨rfl, rfl, by decide⟩

/-- C9: when the executor thread ends with an error (here a failing
create_dir_all during a CreateDir operation, which propagates out of its
consume loop), copy_tree still returns success as long as no error was
sent on the stats channel: the spawned threads' Result values are never
joined or inspected, so only stats-channel errors reach the caller. -/
theorem claim_C9_thread_results_dropped (wfs : WorkerFs)
    (ops : List Operation) (stats : List (Except XcpError StatusUpdate))
    (walkRes : Except XcpError Unit) (e : XcpError)
    (hw : (copy_worker wfs ops).2 = Except.error e)
    (hs : errFree stats = true) :
    ∃ t c, copy_tree stats walkRes (copy_worker wfs ops).2 =
      Except.ok (t, c) :=
  aggregate_errFree stats 0 0 hs

/-- A worker filesystem oracle on which directory creation fails. -/
def wfsDirFail : WorkerFs :=
  ⟨fun _ _ => Except.ok 0,
   fun _ _ => Except.ok (),
   fun _ => Except.error (XcpError.IOError IOKind.Other),
   fun _ => Except.ok 0⟩

/-- Witness for C9: the executor fails on a CreateDir, yet copy_tree over
an error-free stats history returns success. -/
theorem claim_C9_thread_results_dropped_witness :
    ∃ t c, copy_tree [Except.ok (StatusUpdate.Size 3)]
        (Except.ok ())
        (copy_worker wfsDirFail [Operation.CreateDir ["d"]]).2 =
      Except.ok (t, c) :=
  claim_C9_thread_results_dropped wfsDirFail [Operation.CreateDir ["d"]]
    [Except.ok (StatusUpdate.Size 3)] (Except.ok ())
    (XcpError.IOError IOKind.Other) rfl rfl

/-- C4 (amended): when the computed destination of a single-file copy
already exists as a regular file and no-clobber is set, copy_single_file
fails at once with an already-exists I/O error, performing no copy events,
so no bytes are written and the prior destination content is untouched. -/
theorem claim_C4_single_noclobber (fs : Fs) (opts : Opts) (source : Path)
    (src : SrcFile) (prim : Nat → Nat → Option Nat) (batch fuel : Nat)
    (dest : Path)
    (hd : singleDest fs opts source = Except.ok dest)
    (hf : fs.isFile dest = true)
    (hnc : opts.noclobber = true) :
    copy_single_file fs opts source src prim batch fuel =
      ([], Except.error (XcpError.IOError IOKind.AlreadyExists)) := by
  simp [copy_single_file, hd, hf, hnc]

/-- A filesystem oracle on which every path exists as a directory and none
as a regular file. -/
def fsAllDirs : Fs := ⟨fun _ => true, fun _ => true, fun _ => false⟩

/-- Witness for the amended C4: destination `d` is a directory, `d/f`
exists as a regular file, no-clobber is set, and the copy fails with the
already-exists error and an empty event trace. -/
theorem claim_C4_single_noclobber_witness :
    copy_single_file fsAll optsNC ["s", "f"] ⟨[1], 0⟩
        (fun _ req => some req) 1 1 =
      ([], Except.error (XcpError.IOError IOKind.AlreadyExists)) :=
  claim_C4_single_noclobber fsAll optsNC ["s", "f"] ⟨[1], 0⟩
    (fun _ req => some req) 1 1 ["d", "f"] rfl rfl rfl

/-- Counterexample to C4 as stated: the computed destination `d/f` exists
(as a directory, not a regular file) and no-clobber is set, yet
copy_single_file does not fail with the already-exists error — the
`dest.is_file()` check passes it through and the copy is attempted,
failing here with a generic I/O error instead. -/
theorem claim_C4_counterexample :
    singleDest fsAllDirs optsNC ["s", "f"] = Except.ok ["d", "f"] ∧
    fsAllDirs.pathExists ["d", "f"] = true ∧
    optsNC.noclobber = true ∧
    copy_single_file fsAllDirs optsNC ["s", "f"] ⟨[1], 0⟩
        (fun _ _ => none) 1 1 =
      ([], Except.error (XcpError.IOError IOKind.Other)) ∧
    XcpError.IOError IOKind.Other ≠
      XcpError.IOError IOKind.AlreadyExists :=
  ⟨rfl, rfl, rfl, rfl, by decide⟩

end Xcp
